import Mathlib

/-!
Verification of the response-parsing and request-shaping core of the
Gemini image-generator component (src/components/GeminiImageGenerator.tsx).

The embedding models:
  * the JSON value space and the host runtime's strict JSON parser
    (`JSON.parse`), including string escapes and JS object key semantics;
  * the fast-path regex scan for a field literally named "data"
    (component line 187);
  * the recursive fallback search `findData` (lines 196-207);
  * the whole extractor pipeline of `handleGenerate` (lines 184-219);
  * `atob`-based base64 decoding and `base64ToBlob` (lines 13-21);
  * request construction, validation fast-fail, and the object-URL
    (display handle) discipline of the component's state updates.

Machine integers do not occur in the extractor; all sizes are Nat.
Recursions over the nested JSON tree are written with an explicit Nat
fuel so that every definition is a computable structural recursion the
kernel can evaluate.  Whenever a parsed value is traversed, the fuel is
`text.length + 1`, which strictly exceeds the nesting depth of any value
parsed from `text` (each nesting level consumes at least one character),
so the fuel never cuts a real traversal short.
-/

/-- JSON values as produced by the host runtime's `JSON.parse`.  Numeric
literals are kept verbatim: the extractor under verification never looks
at a numeric value, only at its (non-object, non-string) type. -/
inductive Json where
  | null : Json
  | bool (b : Bool) : Json
  | num (lit : String) : Json
  | str (s : String) : Json
  | arr (elems : List Json) : Json
  | obj (fields : List (String × Json)) : Json
deriving Repr

/-- Whitespace accepted between JSON tokens (RFC 8259 / `JSON.parse`). -/
def jsonWs (c : Char) : Bool :=
  c = ' ' || c = '\t' || c = '\n' || c = '\r'

/-- Drop leading JSON whitespace. -/
def skipWs (cs : List Char) : List Char :=
  cs.dropWhile jsonWs

/-- Value of one hexadecimal digit. -/
def hexVal (c : Char) : Option Nat :=
  if '0' ≤ c ∧ c ≤ '9' then some (c.toNat - '0'.toNat)
  else if 'a' ≤ c ∧ c ≤ 'f' then some (c.toNat - 'a'.toNat + 10)
  else if 'A' ≤ c ∧ c ≤ 'F' then some (c.toNat - 'A'.toNat + 10)
  else none

/-- Value of a four-digit hexadecimal escape. -/
def hex4 (a b c d : Char) : Option Nat :=
  match hexVal a, hexVal b, hexVal c, hexVal d with
  | some va, some vb, some vc, some vd => some (((va * 16 + vb) * 16 + vc) * 16 + vd)
  | _, _, _, _ => none

/-- Body of a JSON string literal after the opening quote, as the list
of UTF-16-style units the escapes denote (raw characters contribute
their code point).  Raw control characters are rejected, as by the host
parser. -/
def parseStrUnits : List Nat → List Char → Option (List Nat × List Char)
  | _, [] => none
  | acc, '"' :: rest => some (acc.reverse, rest)
  | acc, '\\' :: esc =>
    match esc with
    | '"' :: rest => parseStrUnits (34 :: acc) rest
    | '\\' :: rest => parseStrUnits (92 :: acc) rest
    | '/' :: rest => parseStrUnits (47 :: acc) rest
    | 'b' :: rest => parseStrUnits (8 :: acc) rest
    | 'f' :: rest => parseStrUnits (12 :: acc) rest
    | 'n' :: rest => parseStrUnits (10 :: acc) rest
    | 'r' :: rest => parseStrUnits (13 :: acc) rest
    | 't' :: rest => parseStrUnits (9 :: acc) rest
    | 'u' :: a :: b :: c :: d :: rest =>
      match hex4 a b c d with
      | none => none
      | some n => parseStrUnits (n :: acc) rest
    | _ => none
  | acc, c :: rest =>
    if c.toNat < 32 then none else parseStrUnits (c.toNat :: acc) rest

/-- Is the unit a high (leading) surrogate. -/
def isHighSurrogate (u : Nat) : Bool :=
  0xD800 ≤ u && u ≤ 0xDBFF

/-- Is the unit a low (trailing) surrogate. -/
def isLowSurrogate (u : Nat) : Bool :=
  0xDC00 ≤ u && u ≤ 0xDFFF

/-- One unit as a character.  A lone surrogate is kept by JavaScript but
is not representable as a Lean `Char`; it is mapped to U+FFFD (no
verified property touches lone surrogates). -/
def unitChar (u : Nat) : Char :=
  if isHighSurrogate u || isLowSurrogate u then '�' else Char.ofNat u

/-- Combine adjacent surrogate-pair units into code points, as
`JSON.parse` does for paired `\u` escapes. -/
def unitsToChars : List Nat → List Char
  | [] => []
  | [u] => [unitChar u]
  | u :: u2 :: rest =>
    if isHighSurrogate u && isLowSurrogate u2 then
      Char.ofNat (0x10000 + (u - 0xD800) * 0x400 + (u2 - 0xDC00)) :: unitsToChars rest
    else unitChar u :: unitsToChars (u2 :: rest)

/-- Body of a JSON string literal, after the opening quote. -/
def parseStringBody (cs : List Char) : Option (String × List Char) :=
  match parseStrUnits [] cs with
  | some (units, rest) => some (String.mk (unitsToChars units), rest)
  | none => none

/-- Decimal digit test. -/
def isDigitChar (c : Char) : Bool :=
  '0' ≤ c && c ≤ '9'

/-- Longest digit run at the head of the input, and the remainder. -/
def lexDigits (cs : List Char) : List Char × List Char :=
  (cs.takeWhile isDigitChar, cs.dropWhile isDigitChar)

/-- Integer part of a JSON number (no leading zeros except "0" itself). -/
def lexInt (cs : List Char) : Option (List Char × List Char) :=
  match cs with
  | '0' :: r => some (['0'], r)
  | c :: _ => if isDigitChar c then some (lexDigits cs) else none
  | [] => none

/-- Optional fraction part of a JSON number. -/
def lexFrac (cs : List Char) : Option (List Char × List Char) :=
  match cs with
  | '.' :: r =>
    let p := lexDigits r
    if p.1.isEmpty then none else some ('.' :: p.1, p.2)
  | _ => some ([], cs)

/-- Optional exponent part of a JSON number. -/
def lexExp (cs : List Char) : Option (List Char × List Char) :=
  match cs with
  | c :: r =>
    if c = 'e' ∨ c = 'E' then
      let (sgn, r2) :=
        match r with
        | '+' :: r3 => ((['+'] : List Char), r3)
        | '-' :: r3 => ((['-'] : List Char), r3)
        | _ => ([], r)
      let p := lexDigits r2
      if p.1.isEmpty then none else some (c :: (sgn ++ p.1), p.2)
    else some ([], cs)
  | [] => some ([], cs)

/-- Lexes a JSON number literal, returning it verbatim. -/
def lexNumber (cs : List Char) : Option (String × List Char) :=
  let (sgn, cs1) :=
    match cs with
    | '-' :: r => ((['-'] : List Char), r)
    | _ => ([], cs)
  match lexInt cs1 with
  | none => none
  | some (ip, cs2) =>
    match lexFrac cs2 with
    | none => none
    | some (fp, cs3) =>
      match lexExp cs3 with
      | none => none
      | some (ep, cs4) => some (String.mk (sgn ++ ip ++ fp ++ ep), cs4)

/-- Property assignment as performed by `JSON.parse` on a duplicate key:
the value is overwritten in place, the key keeps its original position;
a fresh key is appended. -/
def jsInsert (fields : List (String × Json)) (key : String) (v : Json) :
    List (String × Json) :=
  match fields with
  | [] => [(key, v)]
  | (k, w) :: rest => if k = key then (k, v) :: rest else (k, w) :: jsInsert rest key v

/-- Mode of the recursive-descent parser: a whole value, the members of
an object after the opening brace, or the elements of an array after
the opening bracket. -/
inductive PTask where
  | value : PTask
  | objectBody (acc : List (String × Json)) : PTask
  | arrayBody (acc : List Json) : PTask

/-- One fueled step of the strict recursive-descent JSON parser
(modelling the host runtime's `JSON.parse` grammar). -/
def parseStep : Nat → PTask → List Char → Option (Json × List Char)
  | 0, _, _ => none
  | fuel + 1, PTask.value, cs =>
    match skipWs cs with
    | [] => none
    | '\x7b' :: rest =>
      match skipWs rest with
      | '\x7d' :: rest2 => some (Json.obj [], rest2)
      | _ => parseStep fuel (PTask.objectBody []) rest
    | '[' :: rest =>
      match skipWs rest with
      | ']' :: rest2 => some (Json.arr [], rest2)
      | _ => parseStep fuel (PTask.arrayBody []) rest
    | '"' :: rest => (parseStringBody rest).map (fun p => (Json.str p.1, p.2))
    | 't' :: 'r' :: 'u' :: 'e' :: rest => some (Json.bool true, rest)
    | 'f' :: 'a' :: 'l' :: 's' :: 'e' :: rest => some (Json.bool false, rest)
    | 'n' :: 'u' :: 'l' :: 'l' :: rest => some (Json.null, rest)
    | other => (lexNumber other).map (fun p => (Json.num p.1, p.2))
  | fuel + 1, PTask.objectBody acc, cs =>
    match skipWs cs with
    | '"' :: rest =>
      match parseStringBody rest with
      | none => none
      | some (key, rest2) =>
        match skipWs rest2 with
        | ':' :: rest3 =>
          match parseStep fuel PTask.value rest3 with
          | none => none
          | some (v, rest4) =>
            match skipWs rest4 with
            | ',' :: rest5 => parseStep fuel (PTask.objectBody (jsInsert acc key v)) rest5
            | '\x7d' :: rest5 => some (Json.obj (jsInsert acc key v), rest5)
            | _ => none
        | _ => none
    | _ => none
  | fuel + 1, PTask.arrayBody acc, cs =>
    match parseStep fuel PTask.value cs with
    | none => none
    | some (v, rest) =>
      match skipWs rest with
      | ',' :: rest2 => parseStep fuel (PTask.arrayBody (acc ++ [v])) rest2
      | ']' :: rest2 => some (Json.arr (acc ++ [v]), rest2)
      | _ => none

/-- Model of `JSON.parse text`: parse one value, allow trailing
whitespace, reject anything else.  The fuel `2 * length + 8` exceeds
what any input of this length can consume, since the parser steps at
most a bounded number of times per input character. -/
def parseJson (s : String) : Option Json :=
  match parseStep (2 * s.length + 8) PTask.value s.data with
  | some (j, rest) => if skipWs rest = [] then some j else none
  | none => none

/-- Character class of JavaScript's regex `\s`. -/
def jsRegexWs (c : Char) : Bool :=
  c = '\t' || c = '\n' || c = '\x0b' || c = '\x0c' || c = '\r' || c = ' ' ||
  c = '\u00A0' || c = '\u1680' || ('\u2000' ≤ c && c ≤ '\u200A') ||
  c = '\u2028' || c = '\u2029' || c = '\u202F' || c = '\u205F' || c = '\uFEFF' ||
  c = '\u3000'

/-- Attempt of the pattern `"data"\s*:\s*"([^"]*)"` at the head of the
input (component line 187); returns the capture on success.  The greedy
`\s*` needs no backtracking because `:` and `"` are not `\s`, and the
greedy `([^"]*)"` is exactly "take until the next quote, which must
exist". -/
def matchDataAt (cs : List Char) : Option String :=
  match cs with
  | '"' :: 'd' :: 'a' :: 't' :: 'a' :: '"' :: rest =>
    match rest.dropWhile jsRegexWs with
    | ':' :: rest2 =>
      match (rest2.dropWhile jsRegexWs) with
      | '"' :: rest3 =>
        match rest3.dropWhile (fun c => c != '"') with
        | '"' :: _ => some (String.mk (rest3.takeWhile (fun c => c != '"')))
        | _ => none
      | _ => none
    | _ => none
  | _ => none

/-- Leftmost match of the fast-path pattern over a character list. -/
def fastCaptureList : List Char → Option String
  | [] => none
  | c :: rest =>
    match matchDataAt (c :: rest) with
    | some cap => some cap
    | none => fastCaptureList rest

/-- Capture of the leftmost match of `/"data"\s*:\s*"([^"]*)"/` on the
raw response text, i.e. `text.match(...)` of component line 187. -/
def fastCapture (text : String) : Option String :=
  fastCaptureList text.data

/-- Canonical numeric string usable as an array index, the class of keys
that `Object.keys` lists first, in ascending numeric order. -/
def decDigitsVal (cs : List Char) : Nat :=
  cs.foldl (fun acc c => 10 * acc + (c.toNat - '0'.toNat)) 0

/-- Does the key denote an array index (digits, no leading zero except
"0" itself, below 2^32 - 1)? -/
def isArrayIndexKey (s : String) : Bool :=
  let cs := s.data
  (!cs.isEmpty) && cs.all isDigitChar &&
    (s == "0" || cs.head? != some '0') && decDigitsVal cs < 4294967295

/-- Key order of `Object.keys` on an object built by `JSON.parse`:
array-index keys first in ascending numeric order, then the remaining
keys in insertion order. -/
def jsKeyOrder (fields : List (String × Json)) : List (String × Json) :=
  List.insertionSort (fun p q => decDigitsVal p.1.data ≤ decDigitsVal q.1.data)
      (fields.filter (fun p => isArrayIndexKey p.1)) ++
    fields.filter (fun p => !isArrayIndexKey p.1)

/-- Accumulator step of the `findData` loop over an object's keys: the
loop returns the first truthy (that is, nonempty) string produced by a
recursive call, skipping falsy results (component lines 199-205). -/
def pickFound (acc : Option String) (r : Option String) : Option String :=
  match acc with
  | some s => some s
  | none =>
    match r with
    | some s => if s = "" then none else some s
    | none => none

/-- The recursive fallback search of component lines 196-207, with
explicit fuel.  On a non-object (including null) it returns null; on an
object whose own `data` property is a string it returns that string
directly; otherwise it loops over `Object.keys` in order, recursing
into object-typed values (recursion into other values is a no-op, so it
is applied uniformly) and returning the first truthy result. -/
def findDataF : Nat → Json → Option String
  | 0, _ => none
  | fuel + 1, j =>
    match j with
    | Json.obj fields =>
      match fields.lookup "data" with
      | some (Json.str s) => some s
      | _ =>
        ((jsKeyOrder fields).map Prod.snd).foldl
          (fun acc v => pickFound acc (findDataF fuel v)) none
    | Json.arr xs => xs.foldl (fun acc v => pickFound acc (findDataF fuel v)) none
    | _ => none

/-- Response extraction of component lines 184-219, parameterised by the
JSON parser so that fast-path results are visibly independent of it:
take the regex capture when it is truthy; otherwise parse the text and
run `findData` (a parse failure is swallowed); a null or empty final
result is "not found" (line 214). -/
def extractWith (parse : String → Option Json) (text : String) : Option String :=
  let fallback : Option String :=
    match parse text with
    | some j => findDataF (text.length + 1) j
    | none => none
  let base64 : Option String :=
    match fastCapture text with
    | some cap => if cap = "" then fallback else some cap
    | none => fallback
  match base64 with
  | some s => if s = "" then none else some s
  | none => none

/-- The Response Extractor: `extractWith` instantiated with the host
parser `JSON.parse`. -/
def extract (text : String) : Option String :=
  extractWith parseJson text

/-- ASCII whitespace removed by the forgiving-base64 decode of `atob`. -/
def asciiWs (c : Char) : Bool :=
  c = '\t' || c = '\n' || c = '\x0c' || c = '\r' || c = ' '

/-- Value of one base64 alphabet character. -/
def b64Val (c : Char) : Option Nat :=
  if 'A' ≤ c ∧ c ≤ 'Z' then some (c.toNat - 'A'.toNat)
  else if 'a' ≤ c ∧ c ≤ 'z' then some (c.toNat - 'a'.toNat + 26)
  else if '0' ≤ c ∧ c ≤ '9' then some (c.toNat - '0'.toNat + 52)
  else if c = '+' then some 62
  else if c = '/' then some 63
  else none

/-- Strip up to two leading `=` characters (worker on the reversed
list). -/
def stripPadRev : List Char → List Char
  | [] => []
  | c :: r =>
    if c = '=' then
      match r with
      | c2 :: r2 => if c2 = '=' then r2 else r
      | [] => []
    else c :: r

/-- Strip up to two trailing `=` characters. -/
def stripPad (cs : List Char) : List Char :=
  (stripPadRev cs.reverse).reverse

/-- Number of trailing `=` characters that forgiving-base64 strips. -/
def padCount (cs : List Char) : Nat :=
  match cs.reverse with
  | [] => 0
  | c :: r =>
    if c = '=' then
      match r with
      | c2 :: _ => if c2 = '=' then 2 else 1
      | [] => 1
    else 0

/-- Map every character to its base64 value, failing on the first
character outside the alphabet. -/
def mapB64 : List Char → Option (List Nat)
  | [] => some []
  | c :: rest =>
    match b64Val c, mapB64 rest with
    | some v, some vs => some (v :: vs)
    | _, _ => none

/-- Bytes of a list of 6-bit groups: each full group of four yields
three bytes; a final group of two or three yields one or two bytes with
the excess bits discarded (forgiving-base64; a final single group
cannot survive validation). -/
def decodeB64 : List Nat → List Nat
  | [] => []
  | [_] => []
  | [a, b] => [a * 4 + b / 16]
  | [a, b, c] => [a * 4 + b / 16, (b % 16) * 16 + c / 4]
  | a :: b :: c :: d :: rest =>
    (a * 4 + b / 16) :: ((b % 16) * 16 + c / 4) :: ((c % 4) * 64 + d) :: decodeB64 rest

/-- The host's `atob`: forgiving-base64 decode.  Remove ASCII
whitespace; if the length is a multiple of four, strip up to two
trailing `=`; fail if the remaining length is 1 mod 4 or any character
is outside the alphabet; otherwise decode.  Returns the byte sequence
(`charCodeAt` of each character of the binary string). -/
def atob (s : String) : Option (List Nat) :=
  let cs := s.data.filter (fun c => !asciiWs c)
  let cs2 := if cs.length % 4 == 0 then stripPad cs else cs
  if cs2.length % 4 == 1 then none
  else
    match mapB64 cs2 with
    | some vs => some (decodeB64 vs)
    | none => none

/-- An immutable binary payload with a MIME type, as built by the
`Blob` constructor. -/
structure Blob where
  bytes : List Nat
  type : String
deriving Repr, DecidableEq

/-- Component lines 13-21: decode the base64 string with `atob`, read
the bytes out of the binary string, and wrap them as a blob of the
given content type ("image/png" at the call site).  An `atob` failure
surfaces as `none` (the thrown `InvalidCharacterError`). -/
def base64ToBlob (base64 : String) (contentType : String) : Option Blob :=
  (atob base64).map (fun bs => { bytes := bs, type := contentType })

/-- The fixed endpoint of the single outbound POST (component lines
10-11). -/
def ENDPOINT : String :=
  "https://generativelanguage.googleapis.com/v1beta/models/gemini-2.5-flash-image:generateContent"

/-- The browser-local storage key holding the credential (line 23). -/
def STORAGE_KEY : String :=
  "gemini_api_key"

/-- Truthiness of a nullable string, as tested by
`if (sourceBase64 && sourceMime)` on line 147: present and nonempty. -/
def truthyStr (s : Option String) : Bool :=
  match s with
  | some v => v != ""
  | none => false

/-- The `\x7b text: prompt \x7d` part (line 144). -/
def textPart (prompt : String) : Json :=
  Json.obj [("text", Json.str prompt)]

/-- The `\x7b inline_data: \x7b mime_type, data \x7d \x7d` part (lines
148-153). -/
def inlineDataPart (mime data : String) : Json :=
  Json.obj [("inline_data",
    Json.obj [("mime_type", Json.str mime), ("data", Json.str data)])]

/-- The parts array of the request body: always the prompt text first,
then the inline-data part exactly when both the source base64 and its
MIME type are truthy (lines 143-154). -/
def buildParts (prompt : String) (sourceBase64 sourceMime : Option String) :
    List Json :=
  if truthyStr sourceBase64 && truthyStr sourceMime then
    [textPart prompt,
     inlineDataPart (sourceMime.getD "") (sourceBase64.getD "")]
  else [textPart prompt]

/-- The request body `\x7b contents: [ \x7b parts \x7d ] \x7d` of lines
156-162.  The credential is not a parameter: the body never contains
it. -/
def buildBody (prompt : String) (sourceBase64 sourceMime : Option String) : Json :=
  Json.obj [("contents",
    Json.arr [Json.obj [("parts",
      Json.arr (buildParts prompt sourceBase64 sourceMime))]])]

/-- An outbound HTTP request as assembled by the `fetch` call of lines
165-172. -/
structure Request where
  url : String
  method : String
  headers : List (String × String)
  body : Json
deriving Repr

/-- The request of lines 165-172: POST to the fixed endpoint, with the
credential in the dedicated `x-goog-api-key` header. -/
def buildRequest (apiKey prompt : String) (sourceBase64 sourceMime : Option String) :
    Request :=
  { url := ENDPOINT
    method := "POST"
    headers := [("Content-Type", "application/json"), ("x-goog-api-key", apiKey)]
    body := buildBody prompt sourceBase64 sourceMime }

/-- User-visible notifications (the `showError` / `showSuccess` calls;
the transient loading toast is timing-only UI and is not modelled). -/
inductive Notice where
  | validationError (msg : String)
  | apiError (status : Nat) (statusText : String)
  | networkError
  | extractionNotFound
  | decodeFailed
  | generatedOk
deriving Repr, DecidableEq

/-- Outcome of the awaited `fetch`, as the component distinguishes it:
a 2xx body, a non-2xx status, or a thrown network error. -/
inductive HttpResponse where
  | ok (text : String)
  | httpError (status : Nat) (statusText : String) (body : String)
  | networkFailure
deriving Repr

/-- Primitive display-handle actions, in execution order:
`URL.createObjectURL`, `URL.revokeObjectURL`, and the state updates
that make a handle the current generated/source one. -/
inductive UrlAction where
  | create (id : Nat)
  | revoke (id : Nat)
  | setGen (h : Option Nat)
  | setSrc (h : Option Nat)
deriving Repr, DecidableEq

/-- The component's local state.  Display handles (object URLs) are
identified by the order of their creation (`nextUrl` is the next fresh
id).  `sourceFile` itself is carried only into the preview UI and is
subsumed by the base64/MIME pair here. -/
structure GenState where
  apiKey : String
  prompt : String
  loading : Bool
  generatedImageUrl : Option Nat
  generatedImageBlob : Option Blob
  sourceBase64 : Option String
  sourceMime : Option String
  sourcePreviewUrl : Option Nat
  nextUrl : Nat
deriving Repr

/-- Lines 89-95: if a generated-image handle is held, revoke it and
null out the url and blob; otherwise do nothing. -/
def clearGeneratedImage (st : GenState) : GenState × List UrlAction :=
  match st.generatedImageUrl with
  | some o =>
    ({ st with generatedImageUrl := none, generatedImageBlob := none },
     [UrlAction.revoke o, UrlAction.setGen none])
  | none => (st, [])

/-- Lines 97-105: null out the source fields; revoke the preview handle
if one is held. -/
def clearSourceImage (st : GenState) : GenState × List UrlAction :=
  let st1 := { st with sourceBase64 := none, sourceMime := none }
  match st.sourcePreviewUrl with
  | some o =>
    ({ st1 with sourcePreviewUrl := none }, [UrlAction.revoke o, UrlAction.setSrc none])
  | none => (st1, [])

/-- Lines 112-123, success path of selecting a source file: create the
new preview handle, revoke the old one if present, then install the new
source fields. -/
def selectSourceImage (st : GenState) (b64 mime : String) : GenState × List UrlAction :=
  let preview := st.nextUrl
  let revokes :=
    match st.sourcePreviewUrl with
    | some o => [UrlAction.revoke o]
    | none => ([] : List UrlAction)
  ({ st with sourceBase64 := some b64, sourceMime := some mime,
             sourcePreviewUrl := some preview, nextUrl := preview + 1 },
   UrlAction.create preview :: (revokes ++ [UrlAction.setSrc (some preview)]))

/-- Lines 221-227, success tail of `handleGenerate`: clear the previous
generated image (revoking its handle), then create and install the new
handle and blob. -/
def generateImageSuccess (st : GenState) (blob : Blob) : GenState × List UrlAction :=
  let cleared := clearGeneratedImage st
  let id := cleared.1.nextUrl
  ({ cleared.1 with nextUrl := id + 1, generatedImageBlob := some blob,
                    generatedImageUrl := some id },
   cleared.2 ++ [UrlAction.create id, UrlAction.setGen (some id)])

/-- Result of one invocation of the generation action: the request it
issued (if any), the state afterwards, the handle actions it performed
in order, and the notifications it raised. -/
structure GenResult where
  request : Option Request
  state : GenState
  actions : List UrlAction
  notices : List Notice
deriving Repr

/-- Lines 130-240, `handleGenerate`: fail fast on an empty credential
or prompt (no request, no state change); otherwise build and send the
request and handle the oracle's response: network failure and non-2xx
report errors; a 2xx body runs the extractor, then decodes, and on
success replaces the current generated image.  (`setLoading` is
modelled; the loading toast is not.) -/
def handleGenerate (st : GenState) (resp : HttpResponse) : GenResult :=
  if st.apiKey = "" then
    { request := none, state := st, actions := [],
      notices := [Notice.validationError "Introduce la API key antes de generar la imagen."] }
  else if st.prompt = "" then
    { request := none, state := st, actions := [],
      notices := [Notice.validationError "Escribe un prompt para generar la imagen."] }
  else
    let req := buildRequest st.apiKey st.prompt st.sourceBase64 st.sourceMime
    let st1 : GenState := { st with loading := true }
    match resp with
    | HttpResponse.networkFailure =>
      { request := some req, state := { st1 with loading := false }, actions := [],
        notices := [Notice.networkError] }
    | HttpResponse.httpError status statusText _ =>
      { request := some req, state := { st1 with loading := false }, actions := [],
        notices := [Notice.apiError status statusText] }
    | HttpResponse.ok text =>
      match extract text with
      | none =>
        { request := some req, state := { st1 with loading := false }, actions := [],
          notices := [Notice.extractionNotFound] }
      | some b64 =>
        match base64ToBlob b64 "image/png" with
        | none =>
          { request := some req, state := { st1 with loading := false }, actions := [],
            notices := [Notice.decodeFailed] }
        | some blob =>
          let stepped := generateImageSuccess st1 blob
          { request := some req, state := { stepped.1 with loading := false },
            actions := stepped.2, notices := [Notice.generatedOk] }

/-- The handle-touching operations of the component.  `teardown` is the
unmount cleanup of lines 72-78; its effect closure captured the state
of the first render, so the values it revokes are the captured ones
(both null at mount), not the current ones. -/
inductive UiOp where
  | generateSuccess (blob : Blob)
  | clearResult
  | selectSource (b64 mime : String)
  | clearSource
  | teardown (capturedGen capturedSrc : Option Nat)

/-- Execute one operation, returning the new state and the handle
actions in order. -/
def runOp : UiOp → GenState → GenState × List UrlAction
  | UiOp.generateSuccess blob, st => generateImageSuccess st blob
  | UiOp.clearResult, st => clearGeneratedImage st
  | UiOp.selectSource b64 mime, st => selectSourceImage st b64 mime
  | UiOp.clearSource, st => clearSourceImage st
  | UiOp.teardown cg cs, st =>
    (st, (match cg with | some o => [UrlAction.revoke o] | none => []) ++
         (match cs with | some o => [UrlAction.revoke o] | none => []))

/-- Within one action trace: every installation of a new current
generated handle is preceded by a revocation of the previously held one
`old`. -/
def genReplaceOk (old : Nat) : List UrlAction → Bool
  | [] => true
  | UrlAction.setGen (some _) :: _ => false
  | UrlAction.revoke i :: rest => if i = old then true else genReplaceOk old rest
  | _ :: rest => genReplaceOk old rest

/-- Within one action trace: every installation of a new current source
preview handle is preceded by a revocation of the previously held one
`old`. -/
def srcReplaceOk (old : Nat) : List UrlAction → Bool
  | [] => true
  | UrlAction.setSrc (some _) :: _ => false
  | UrlAction.revoke i :: rest => if i = old then true else srcReplaceOk old rest
  | _ :: rest => srcReplaceOk old rest

/-- Does the value contain no field named "data" anywhere, to the given
recursion depth?  With fuel `text.length + 1` this covers every value
`parseJson text` can produce.  (Claim-side predicate for the "no data
field" hypotheses.) -/
def noDataF : Nat → Json → Bool
  | 0, _ => true
  | fuel + 1, j =>
    match j with
    | Json.obj fields => fields.all (fun p => p.1 != "data" && noDataF fuel p.2)
    | Json.arr xs => xs.all (fun v => noDataF fuel v)
    | _ => true

/-- Is the field acceptable for the "every data field holds the empty
string" hypothesis: either not named "data", or exactly the empty
string? -/
def dataFieldOnlyEmpty (p : String × Json) : Bool :=
  if p.1 = "data" then
    match p.2 with
    | Json.str s => s == ""
    | _ => false
  else true

/-- Does every field named "data" in the value hold the empty string,
to the given recursion depth? -/
def allDataEmptyF : Nat → Json → Bool
  | 0, _ => true
  | fuel + 1, j =>
    match j with
    | Json.obj fields => fields.all (fun p => dataFieldOnlyEmpty p && allDataEmptyF fuel p.2)
    | Json.arr xs => xs.all (fun v => allDataEmptyF fuel v)
    | _ => true

/-- Spec-side reading for C1: the value of a top-level field named
"data" holding a quoted string, if any. -/
def specTopLevelData (j : Json) : Option String :=
  match j with
  | Json.obj fields =>
    match fields.lookup "data" with
    | some (Json.str s) => some s
    | _ => none
  | _ => none

/-- Spec-side reading for C2, following the claim's words: the first
string value of a field named "data" in document order (depth-first,
fields in textual order, a field inspected before its subtree). -/
def specDocOrderFirstDataF : Nat → Json → Option String
  | 0, _ => none
  | fuel + 1, j =>
    match j with
    | Json.obj fields =>
      fields.foldl
        (fun acc p =>
          match acc with
          | some s => some s
          | none =>
            if p.1 = "data" then
              match p.2 with
              | Json.str s => some s
              | v => specDocOrderFirstDataF fuel v
            else specDocOrderFirstDataF fuel p.2) none
    | Json.arr xs =>
      xs.foldl
        (fun acc v =>
          match acc with
          | some s => some s
          | none => specDocOrderFirstDataF fuel v) none
    | _ => none

/-- Spec-side reading for C8: a source image is present when the state
carries its base64 payload and MIME type. -/
def specSourcePresent (sourceBase64 sourceMime : Option String) : Prop :=
  sourceBase64.isSome ∧ sourceMime.isSome

/-- Elements of the `Object.keys` ordering are fields of the object. -/
theorem mem_of_mem_jsKeyOrder {p : String × Json} {fields : List (String × Json)}
    (h : p ∈ jsKeyOrder fields) : p ∈ fields := by
  unfold jsKeyOrder at h
  rcases List.mem_append.mp h with h1 | h2
  · exact (List.mem_filter.mp ((List.mem_insertionSort _).mp h1)).1
  · exact (List.mem_filter.mp h2).1

/-- A key-wise lookup hit is a member of the association list. -/
theorem mem_of_lookup_data {fields : List (String × Json)} {v : Json}
    (h : fields.lookup "data" = some v) : ("data", v) ∈ fields := by
  induction fields with
  | nil => simp [List.lookup] at h
  | cons q rest ih =>
    rw [List.lookup] at h
    split at h
    · rename_i hk
      cases h
      obtain ⟨k, w⟩ := q
      have hkk : "data" = k := by simpa using hk
      subst hkk
      exact List.mem_cons_self _ _
    · rename_i hk
      exact List.mem_cons_of_mem _ (ih h)

/-- If no field of the association list is named "data", the lookup
misses. -/
theorem lookup_data_none {fields : List (String × Json)}
    (h : ∀ p ∈ fields, p.1 ≠ "data") : fields.lookup "data" = none := by
  cases hl : fields.lookup "data" with
  | none => rfl
  | some v => exact absurd rfl (h _ (mem_of_lookup_data hl))

/-- The `findData` key loop returns null when every recursive call
returns null or the empty string (a falsy result is skipped). -/
theorem foldl_pickFound_none (g : Json → Option String) (l : List Json)
    (h : ∀ v ∈ l, g v = none ∨ g v = some "") :
    l.foldl (fun acc v => pickFound acc (g v)) none = none := by
  induction l with
  | nil => rfl
  | cons v rest ih =>
    have hstep : pickFound none (g v) = none := by
      rcases h v (by simp) with hv | hv <;> simp [pickFound, hv]
    simp only [List.foldl_cons, hstep]
    exact ih (fun w hw => h w (by simp [hw]))

/-- A value with no "data" field (to matching depth) makes `findData`
return null. -/
theorem findDataF_of_noData : ∀ fuel j, noDataF fuel j = true → findDataF fuel j = none := by
  intro fuel
  induction fuel with
  | zero => intro j _; rfl
  | succ f ih =>
    intro j h
    match j with
    | Json.null => rfl
    | Json.bool b => rfl
    | Json.num lit => rfl
    | Json.str s => rfl
    | Json.arr xs =>
      simp only [noDataF, List.all_eq_true] at h
      simp only [findDataF]
      exact foldl_pickFound_none _ _ (fun v hv => Or.inl (ih v (h v hv)))
    | Json.obj fields =>
      simp only [noDataF, List.all_eq_true, Bool.and_eq_true, bne_iff_ne] at h
      have hlk : fields.lookup "data" = none :=
        lookup_data_none (fun p hp => (h p hp).1)
      simp only [findDataF, hlk]
      refine foldl_pickFound_none _ _ ?_
      intro v hv
      rcases List.mem_map.mp hv with ⟨p, hp, rfl⟩
      exact Or.inl (ih p.2 (h p (mem_of_mem_jsKeyOrder hp)).2)

/-- A value whose every "data" field is the empty string (to matching
depth) makes `findData` return null or the empty string. -/
theorem findDataF_of_allDataEmpty :
    ∀ fuel j, allDataEmptyF fuel j = true →
      findDataF fuel j = none ∨ findDataF fuel j = some "" := by
  intro fuel
  induction fuel with
  | zero => intro j _; exact Or.inl rfl
  | succ f ih =>
    intro j h
    match j with
    | Json.null => exact Or.inl rfl
    | Json.bool b => exact Or.inl rfl
    | Json.num lit => exact Or.inl rfl
    | Json.str s => exact Or.inl rfl
    | Json.arr xs =>
      simp only [allDataEmptyF, List.all_eq_true] at h
      simp only [findDataF]
      exact Or.inl (foldl_pickFound_none _ _ (fun v hv => ih v (h v hv)))
    | Json.obj fields =>
      simp only [allDataEmptyF, List.all_eq_true, Bool.and_eq_true] at h
      cases hlk : fields.lookup "data" with
      | some v =>
        have hmem := mem_of_lookup_data hlk
        have hok := (h _ hmem).1
        simp only [dataFieldOnlyEmpty, if_pos rfl] at hok
        match v, hok with
        | Json.str s, hok =>
          have : s = "" := by simpa using hok
          subst this
          exact Or.inr (by simp [findDataF, hlk])
      | none =>
        simp only [findDataF, hlk]
        refine Or.inl (foldl_pickFound_none _ _ ?_)
        intro v hv
        rcases List.mem_map.mp hv with ⟨p, hp, rfl⟩
        exact ih p.2 (h p (mem_of_mem_jsKeyOrder hp)).2

/-- Response text whose top-level "data" field is preceded, in the raw
text, by a nested field also named "data". -/
def c1Text : String :=
  "\x7b\"a\":\x7b\"data\":\"YWJj\"\x7d,\"data\":\"QUJD\"\x7d"

/-- Response text in which every key spelled `data` is written with the
escape `\u0064`, so the raw text never contains the literal `"data"`
and the fast path cannot match, while the parsed object has a nested
and a top-level field named "data". -/
def c2Text : String :=
  "\x7b\"a\":\x7b\"\\u0064ata\":\"YQ==\"\x7d,\"\\u0064ata\":\"Yg==\"\x7d"

/-- The parse of `c2Text`. -/
def c2Json : Json :=
  Json.obj [("a", Json.obj [("data", Json.str "YQ==")]), ("data", Json.str "Yg==")]

/-- The example response of the specification. -/
def c3Text : String :=
  "\x7b\"candidates\":[\x7b\"content\":\x7b\"parts\":[\x7b\"inlineData\":\x7b\"data\":\"iVBORw0KGgo=\"\x7d\x7d]\x7d\x7d]\x7d"

/-- A valid JSON response with no field named "data". -/
def c4Text : String :=
  "\x7b\"a\": 1\x7d"

/-- Response text whose only field named "data" holds the empty string,
but whose first key ends in the characters `"data` (the quote written
as the escape `\"`), so the raw text matches the fast-path pattern with
the nonempty capture `yy`. -/
def c10Text : String :=
  "\x7b\"x\\\"data\": \"yy\", \"data\": \"\"\x7d"

/-- Response text whose single field "data" holds the empty string. -/
def c10WitnessText : String :=
  "\x7b\"data\":\"\"\x7d"

/-- A component state with a nonempty credential and prompt and no held
images or handles. -/
def stOkW : GenState :=
  { apiKey := "k", prompt := "p", loading := false, generatedImageUrl := none,
    generatedImageBlob := none, sourceBase64 := none, sourceMime := none,
    sourcePreviewUrl := none, nextUrl := 0 }

/-- C1, corrected.  The claim as stated — the Extractor returns the
value of the top-level "data" field — fails when an occurrence of
`"data"` earlier in the raw text wins the leftmost regex match: on
`c1Text` the top-level field holds "QUJD" but the Extractor returns the
nested "YWJj". -/
theorem c1_counterexample :
    (parseJson c1Text).bind specTopLevelData = some "QUJD" ∧
    extract c1Text = some "YWJj" ∧ ("YWJj" : String) ≠ "QUJD" :=
  ⟨rfl, rfl, by decide⟩

/-- C1 (amended): whenever the fast-path pattern
`"data"\s*:\s*"([^"]*)"` has a leftmost match on the raw text with a
nonempty capture — in particular when the top-level "data" field's
occurrence is that leftmost match — the Extractor returns that capture,
and does so for every JSON parser, i.e. without any JSON parse. -/
theorem c1_fastpath_returns_leftmost_capture (parse : String → Option Json)
    (t b : String) (h : fastCapture t = some b) (hb : b ≠ "") :
    extractWith parse t = some b := by
  simp [extractWith, h, hb]

/-- Witness for C1: on `c1Text` the fast path captures "YWJj" and the
Extractor returns it even under a parser that always fails. -/
theorem c1_fastpath_returns_leftmost_capture_witness :
    fastCapture c1Text = some "YWJj" ∧
    extractWith (fun _ => none) c1Text = some "YWJj" :=
  ⟨rfl, c1_fastpath_returns_leftmost_capture (fun _ => none) c1Text "YWJj" rfl (by decide)⟩

/-- C2, corrected.  The claim as stated — the fallback returns the
first string value of a field named "data" in document order — fails:
on `c2Text` (where the fast path cannot match) document order finds the
nested "YQ==" first, but the Extractor returns "Yg==", because
`findData` consults an object's own "data" property before recursing
into earlier fields. -/
theorem c2_counterexample :
    fastCapture c2Text = none ∧
    (parseJson c2Text).bind (specDocOrderFirstDataF (c2Text.length + 1)) = some "YQ==" ∧
    extract c2Text = some "Yg==" ∧ ("Yg==" : String) ≠ "YQ==" :=
  ⟨rfl, rfl, rfl, by decide⟩

/-- C2 (amended): when the fast-path match fails (no match, or an empty
capture) and the text parses, the Extractor returns the result of the
embedded `findData` search — which checks each object's own "data"
property before recursing into its values in `Object.keys` order and
skips empty-string results from the recursion — whenever that result is
a nonempty string. -/
theorem c2_fallback_runs_findData (t : String) (j : Json) (s : String)
    (hfast : fastCapture t = none ∨ fastCapture t = some "")
    (hparse : parseJson t = some j)
    (hfind : findDataF (t.length + 1) j = some s) (hs : s ≠ "") :
    extract t = some s := by
  rcases hfast with h | h <;> simp [extract, extractWith, h, hparse, hfind, hs]

/-- Witness for C2: on `c2Text` the fallback search runs and returns
the top-level "Yg==". -/
theorem c2_fallback_runs_findData_witness :
    fastCapture c2Text = none ∧ parseJson c2Text = some c2Json ∧
    findDataF (c2Text.length + 1) c2Json = some "Yg==" ∧
    extract c2Text = some "Yg==" :=
  ⟨rfl, rfl, rfl,
    c2_fallback_runs_findData c2Text c2Json "Yg==" (Or.inl rfl) rfl rfl (by decide)⟩

/-- C3, confirmed: on the specification's example response the
Extractor returns "iVBORw0KGgo=". -/
theorem c3_concrete_example : extract c3Text = some "iVBORw0KGgo=" := rfl

/-- C4, confirmed: for a response that is valid JSON with no field
named "data" anywhere and whose raw text does not match the fast-path
pattern, the Extractor (a total function — nothing is thrown) returns
the "not found" signal, and `handleGenerate` reports it as the
extraction error. -/
theorem c4_no_data_not_found (st : GenState) (t : String) (j : Json)
    (hkey : st.apiKey ≠ "") (hprompt : st.prompt ≠ "")
    (hfast : fastCapture t = none)
    (hparse : parseJson t = some j)
    (hnd : noDataF (t.length + 1) j = true) :
    extract t = none ∧
    (handleGenerate st (HttpResponse.ok t)).notices = [Notice.extractionNotFound] := by
  have hx : extract t = none := by
    simp [extract, extractWith, hfast, hparse, findDataF_of_noData _ _ hnd]
  exact ⟨hx, by simp [handleGenerate, hkey, hprompt, hx]⟩

/-- Witness for C4 on the data-free response `c4Text`. -/
theorem c4_no_data_not_found_witness :
    extract c4Text = none ∧
    (handleGenerate stOkW (HttpResponse.ok c4Text)).notices = [Notice.extractionNotFound] :=
  c4_no_data_not_found stOkW c4Text (Json.obj [("a", Json.num "1")])
    (by decide) (by decide) rfl rfl (by decide)

/-- C5, confirmed: for a response body that is not valid JSON and does
not match the fast-path pattern, the Extractor signals "not found" (the
parse failure is swallowed by the catch; nothing escapes), and
`handleGenerate` reports the extraction error. -/
theorem c5_invalid_json_not_found (st : GenState) (t : String)
    (hkey : st.apiKey ≠ "") (hprompt : st.prompt ≠ "")
    (hfast : fastCapture t = none) (hparse : parseJson t = none) :
    extract t = none ∧
    (handleGenerate st (HttpResponse.ok t)).notices = [Notice.extractionNotFound] := by
  have hx : extract t = none := by simp [extract, extractWith, hfast, hparse]
  exact ⟨hx, by simp [handleGenerate, hkey, hprompt, hx]⟩

/-- Witness for C5 on the body "not json". -/
theorem c5_invalid_json_not_found_witness :
    extract "not json" = none ∧
    (handleGenerate stOkW (HttpResponse.ok "not json")).notices = [Notice.extractionNotFound] :=
  c5_invalid_json_not_found stOkW "not json" (by decide) (by decide) rfl rfl

/-- C10, corrected.  The claim as stated — every "data" field holding
the empty string forces "not found" — fails when the raw text contains
a spurious fast-path match: on `c10Text` (whose only "data" field holds
"") the Extractor returns "yy", captured across an escaped quote inside
the key `x\"data`. -/
theorem c10_counterexample :
    (parseJson c10Text).map (allDataEmptyF (c10Text.length + 1)) = some true ∧
    extract c10Text = some "yy" :=
  ⟨rfl, rfl⟩

/-- C10 (amended): when every "data" field of the parsed response holds
the empty string and the fast-path match does not produce a nonempty
capture, the Extractor reports "not found": the empty fast-path capture
and the final presence check both treat "" as absent, and the fallback
search never returns a nonempty string from such a value. -/
theorem c10_all_empty_data_not_found (t : String) (j : Json)
    (hfast : fastCapture t = none ∨ fastCapture t = some "")
    (hparse : parseJson t = some j)
    (hde : allDataEmptyF (t.length + 1) j = true) :
    extract t = none := by
  rcases findDataF_of_allDataEmpty (t.length + 1) j hde with hf | hf <;>
    rcases hfast with h | h <;> simp [extract, extractWith, h, hparse, hf]

/-- Witness for C10 on the response whose single "data" field is
empty. -/
theorem c10_all_empty_data_not_found_witness : extract c10WitnessText = none :=
  c10_all_empty_data_not_found c10WitnessText (Json.obj [("data", Json.str "")])
    (Or.inr rfl) rfl (by decide)

/-- Base64 alphabet characters are not `=`. -/
theorem b64Val_ne_pad {c : Char} (h : (b64Val c).isSome = true) : c ≠ '=' := by
  intro heq
  subst heq
  exact absurd h (by decide)

/-- Base64 alphabet characters are not ASCII whitespace. -/
theorem b64Val_not_ws {c : Char} (h : (b64Val c).isSome = true) : asciiWs c = false := by
  cases hws : asciiWs c with
  | false => rfl
  | true =>
    have := hws
    simp only [asciiWs, Bool.or_eq_true, decide_eq_true_eq] at this
    rcases this with (((h1 | h1) | h1) | h1) | h1 <;> subst h1 <;> exact absurd h (by decide)

/-- A list with no ASCII whitespace passes the `atob` filter intact. -/
theorem filter_no_ws {cs : List Char} (h : ∀ c ∈ cs, asciiWs c = false) :
    cs.filter (fun c => !asciiWs c) = cs := by
  induction cs with
  | nil => rfl
  | cons c rest ih =>
    have hc := h c (by simp)
    simp [List.filter_cons, hc, ih (fun d hd => h d (by simp [hd]))]

/-- Stripping the padding of `body ++ pads` recovers `body`, and the
counted padding is the length of `pads`, when `body` is alphabet
characters and `pads` is at most two `=`. -/
theorem stripPad_decomp (body pads : List Char)
    (hbody : ∀ c ∈ body, (b64Val c).isSome = true)
    (hpads : pads = [] ∨ pads = ['='] ∨ pads = ['=', '=']) :
    stripPad (body ++ pads) = body ∧ padCount (body ++ pads) = pads.length := by
  have hhead : ∀ c r, body.reverse = c :: r → c ≠ '=' := by
    intro c r hrev
    have hmem : c ∈ body := by
      have : c ∈ body.reverse := by rw [hrev]; simp
      simpa using this
    exact b64Val_ne_pad (hbody c hmem)
  have hback : ∀ c r, body.reverse = c :: r → (c :: r).reverse = body := by
    intro c r hrev
    simpa using congrArg List.reverse hrev.symm
  rcases hpads with rfl | rfl | rfl
  · rw [List.append_nil]
    constructor
    · show (stripPadRev body.reverse).reverse = body
      cases hb : body.reverse with
      | nil =>
        have : body = [] := by simpa using congrArg List.reverse hb
        simp [this, stripPadRev]
      | cons c r =>
        simp only [stripPadRev, if_neg (hhead c r hb)]
        exact hback c r hb
    · unfold padCount
      cases hb : body.reverse with
      | nil => rfl
      | cons c r => simp [if_neg (hhead c r hb)]
  · constructor
    · show (stripPadRev (body ++ ['=']).reverse).reverse = body
      rw [List.reverse_append]
      cases hb : body.reverse with
      | nil =>
        have : body = [] := by simpa using congrArg List.reverse hb
        simp [this, stripPadRev]
      | cons c r =>
        simp only [List.reverse_cons, List.reverse_nil, List.nil_append,
          List.singleton_append, stripPadRev, if_pos rfl, if_neg (hhead c r hb)]
        exact hback c r hb
    · unfold padCount
      rw [List.reverse_append]
      cases hb : body.reverse with
      | nil => rfl
      | cons c r =>
        simp only [List.reverse_cons, List.reverse_nil, List.nil_append,
          List.singleton_append]
        simp [if_neg (hhead c r hb)]
  · constructor
    · show (stripPadRev (body ++ ['=', '=']).reverse).reverse = body
      rw [List.reverse_append]
      simp [stripPadRev]
    · unfold padCount
      rw [List.reverse_append]
      rfl

/-- Decoded byte count contributed by a final partial group. -/
def b64ExtraLen (n : Nat) : Nat :=
  if n = 2 then 1 else if n = 3 then 2 else 0

/-- Every alphabet list maps to its values. -/
theorem mapB64_of_valid (l : List Char) (h : ∀ c ∈ l, (b64Val c).isSome = true) :
    ∃ vs, mapB64 l = some vs ∧ vs.length = l.length := by
  induction l with
  | nil => exact ⟨[], rfl, rfl⟩
  | cons c rest ih =>
    obtain ⟨vs, hvs, hlen⟩ := ih (fun d hd => h d (by simp [hd]))
    obtain ⟨v, hv⟩ := Option.isSome_iff_exists.mp (h c (by simp))
    exact ⟨v :: vs, by simp [mapB64, hv, hvs], by simp [hlen]⟩

/-- Length of the decoded byte list: three bytes per full group of
four, plus the contribution of a final partial group. -/
theorem decodeB64_length :
    ∀ vs : List Nat, (decodeB64 vs).length = 3 * (vs.length / 4) + b64ExtraLen (vs.length % 4) := by
  intro vs
  induction vs using decodeB64.induct with
  | case1 => rfl
  | case2 a => simp [decodeB64, b64ExtraLen]
  | case3 a b => simp [decodeB64, b64ExtraLen]
  | case4 a b c => simp [decodeB64, b64ExtraLen]
  | case5 a b c d rest ih =>
    have h4 : (rest.length + 4) % 4 = rest.length % 4 := Nat.add_mod_right _ _
    have h4b : (rest.length + 4) / 4 = rest.length / 4 + 1 := Nat.add_div_right _ (by omega)
    simp only [decodeB64, List.length_cons, ih]
    have : rest.length + 1 + 1 + 1 + 1 = rest.length + 4 := by omega
    rw [this, h4, h4b]
    omega

/-- Forgiving-base64 decoding of a canonically padded valid input:
`atob` succeeds and the byte count satisfies the padded-length
equation. -/
theorem atob_valid_length (s : String) (body pads : List Char)
    (hdecomp : s.data = body ++ pads)
    (hbody : ∀ c ∈ body, (b64Val c).isSome = true)
    (hpads : pads = [] ∨ pads = ['='] ∨ pads = ['=', '='])
    (hlen : (body.length + pads.length) % 4 = 0) :
    ∃ bs, atob s = some bs ∧ 4 * (bs.length + pads.length) = 3 * s.length := by
  have hnws : ∀ c ∈ body ++ pads, asciiWs c = false := by
    intro c hc
    rcases List.mem_append.mp hc with hm | hm
    · exact b64Val_not_ws (hbody c hm)
    · have hce : c = '=' := by rcases hpads with rfl | rfl | rfl <;> simp_all
      subst hce
      decide
  have hfilter : (body ++ pads).filter (fun c => !asciiWs c) = body ++ pads :=
    filter_no_ws hnws
  obtain ⟨hstrip, hcount⟩ := stripPad_decomp body pads hbody hpads
  have hmod : (body ++ pads).length % 4 = 0 := by
    simpa [List.length_append] using hlen
  have hbodymod : body.length % 4 ≠ 1 := by
    rcases hpads with rfl | rfl | rfl <;> simp_all <;> omega
  obtain ⟨vs, hmap, hvslen⟩ := mapB64_of_valid body hbody
  have hslen : s.length = body.length + pads.length := by
    have : s.length = s.data.length := rfl
    rw [this, hdecomp, List.length_append]
  refine ⟨decodeB64 vs, ?_, ?_⟩
  · simp only [atob, hdecomp, hfilter, hmod, Nat.zero_lt_succ]
    rw [show ((0 : Nat) == 0) = true from rfl]
    simp only [if_true, hstrip]
    rw [show (body.length % 4 == 1) = false from beq_eq_false_iff_ne.mpr hbodymod]
    simp only [Bool.false_eq_true, if_false, hmap]
  · rw [decodeB64_length, hvslen, hslen]
    rcases hpads with rfl | rfl | rfl
    · have hres : body.length % 4 = 0 := by simpa using hlen
      rw [hres]
      have hE : b64ExtraLen 0 = 0 := rfl
      rw [hE]
      simp only [List.length_nil, List.length_cons]
      omega
    · have hres : body.length % 4 = 3 := by
        have := hlen
        simp only [List.length_cons, List.length_nil] at this
        omega
      rw [hres]
      have hE : b64ExtraLen 3 = 2 := rfl
      rw [hE]
      simp only [List.length_nil, List.length_cons]
      omega
    · have hres : body.length % 4 = 2 := by
        have := hlen
        simp only [List.length_cons, List.length_nil] at this
        omega
      rw [hres]
      have hE : b64ExtraLen 2 = 1 := rfl
      rw [hE]
      simp only [List.length_nil, List.length_cons]
      omega

/-- Response whose extracted payload "!!!" is not valid base64. -/
def c6ErrText : String :=
  "\x7b\"data\":\"!!!\"\x7d"

/-- C6, confirmed: decoding a canonically padded valid base64 string of
length N yields exactly (3N/4 − padding) bytes — stated as
4·(bytes + padding) = 3·N — wrapped by `base64ToBlob` into an
"image/png" payload; and when the extracted payload fails to decode,
the caller reports the decode error, which is a different notification
from the extraction "not found". -/
theorem c6_decode_lengths_and_errors (s : String) (body pads : List Char)
    (hdecomp : s.data = body ++ pads)
    (hbody : ∀ c ∈ body, (b64Val c).isSome = true)
    (hpads : pads = [] ∨ pads = ['='] ∨ pads = ['=', '='])
    (hlen : (body.length + pads.length) % 4 = 0)
    (st : GenState) (t b : String)
    (hkey : st.apiKey ≠ "") (hprompt : st.prompt ≠ "")
    (hex : extract t = some b) (hbad : atob b = none) :
    (∃ bs, atob s = some bs ∧ 4 * (bs.length + pads.length) = 3 * s.length ∧
      base64ToBlob s "image/png" = some { bytes := bs, type := "image/png" }) ∧
    (handleGenerate st (HttpResponse.ok t)).notices = [Notice.decodeFailed] ∧
    Notice.decodeFailed ≠ Notice.extractionNotFound := by
  obtain ⟨bs, h1, h2⟩ := atob_valid_length s body pads hdecomp hbody hpads hlen
  refine ⟨⟨bs, h1, h2, by simp [base64ToBlob, h1]⟩, ?_, by decide⟩
  simp [handleGenerate, hkey, hprompt, hex, base64ToBlob, hbad]

/-- Witness for C6: "iVBORw0KGgo=" (N = 12, one padding character)
decodes to 8 bytes, and the invalid payload "!!!" extracted from
`c6ErrText` yields the decode-failure notification. -/
theorem c6_decode_lengths_and_errors_witness :
    4 * (((atob "iVBORw0KGgo=").getD []).length + (['='] : List Char).length) =
      3 * ("iVBORw0KGgo=" : String).length ∧
    (handleGenerate stOkW (HttpResponse.ok c6ErrText)).notices = [Notice.decodeFailed] := by
  obtain ⟨⟨bs, h1, h2, h3⟩, h4, h5⟩ :=
    c6_decode_lengths_and_errors "iVBORw0KGgo=" ("iVBORw0KGgo" : String).data ['=']
      rfl (by decide) (Or.inr (Or.inl rfl)) (by decide)
      stOkW c6ErrText "!!!" (by decide) (by decide) rfl rfl
  refine ⟨?_, h4⟩
  rw [h1]
  simpa using h2

/-- C7, confirmed: an invocation of the generation action with an empty
credential or an empty prompt issues no request, performs no handle
action, leaves the whole state (images included) unchanged, and raises
exactly the corresponding validation-error notification. -/
theorem c7_validation_fail_fast (st : GenState) (resp : HttpResponse)
    (h : st.apiKey = "" ∨ st.prompt = "") :
    (handleGenerate st resp).request = none ∧
    (handleGenerate st resp).state = st ∧
    (handleGenerate st resp).actions = [] ∧
    (handleGenerate st resp).notices =
      [Notice.validationError
        (if st.apiKey = "" then "Introduce la API key antes de generar la imagen."
         else "Escribe un prompt para generar la imagen.")] := by
  by_cases hk : st.apiKey = ""
  · simp [handleGenerate, hk]
  · rcases h with h | h
    · exact absurd h hk
    · simp [handleGenerate, hk, h]

/-- A component state whose credential is empty. -/
def stEmptyKeyW : GenState :=
  { stOkW with apiKey := "" }

/-- Witness for C7: with an empty credential, no request is issued and
the state is untouched. -/
theorem c7_validation_fail_fast_witness :
    (handleGenerate stEmptyKeyW HttpResponse.networkFailure).request = none ∧
    (handleGenerate stEmptyKeyW HttpResponse.networkFailure).state = stEmptyKeyW :=
  ⟨(c7_validation_fail_fast stEmptyKeyW HttpResponse.networkFailure (Or.inl rfl)).1,
   (c7_validation_fail_fast stEmptyKeyW HttpResponse.networkFailure (Or.inl rfl)).2.1⟩

/-- C8, corrected.  The claim as stated — the inline part is present
exactly when a source image is present — fails for a present-but-empty
source payload (a zero-byte file): with base64 "" and a MIME type the
source is present, yet the truthiness test of line 147 omits the
inline part. -/
theorem c8_counterexample :
    specSourcePresent (some "") (some "image/png") ∧
    buildParts "p" (some "") (some "image/png") = [textPart "p"] :=
  ⟨⟨rfl, rfl⟩, rfl⟩

/-- C8 (amended): every issued request goes by POST to the single fixed
endpoint, carries the credential only in the `x-goog-api-key` header —
the body is the same for every credential — and its body is
`contents: [ \x7b parts \x7d ]` where parts is the prompt text part
followed by the `inline_data` part exactly when a source image with
nonempty data and nonempty MIME type is present. -/
theorem c8_request_shape (apiKey prompt : String) (sourceBase64 sourceMime : Option String) :
    (buildRequest apiKey prompt sourceBase64 sourceMime).url = ENDPOINT ∧
    (buildRequest apiKey prompt sourceBase64 sourceMime).method = "POST" ∧
    (buildRequest apiKey prompt sourceBase64 sourceMime).headers.lookup "x-goog-api-key" =
      some apiKey ∧
    (∀ k2, (buildRequest k2 prompt sourceBase64 sourceMime).body =
      (buildRequest apiKey prompt sourceBase64 sourceMime).body) ∧
    (buildRequest apiKey prompt sourceBase64 sourceMime).body =
      Json.obj [("contents", Json.arr [Json.obj
        [("parts", Json.arr (buildParts prompt sourceBase64 sourceMime))]])] ∧
    (∀ b m, sourceBase64 = some b → sourceMime = some m → b ≠ "" → m ≠ "" →
      buildParts prompt sourceBase64 sourceMime = [textPart prompt, inlineDataPart m b]) ∧
    (truthyStr sourceBase64 = false ∨ truthyStr sourceMime = false →
      buildParts prompt sourceBase64 sourceMime = [textPart prompt]) := by
  refine ⟨rfl, rfl, rfl, fun k2 => rfl, rfl, ?_, ?_⟩
  · intro b m hb hm hbne hmne
    subst hb
    subst hm
    simp [buildParts, truthyStr, hbne, hmne]
  · intro h
    rcases h with h | h <;> simp [buildParts, h]

/-- Witness for C8: a request with a nonempty source image carries both
parts, and the credential sits in the dedicated header. -/
theorem c8_request_shape_witness :
    buildParts "p" (some "YQ==") (some "image/png") =
      [textPart "p", inlineDataPart "image/png" "YQ=="] ∧
    (buildRequest "k" "p" (some "YQ==") (some "image/png")).headers.lookup "x-goog-api-key" =
      some "k" :=
  ⟨(c8_request_shape "k" "p" (some "YQ==") (some "image/png")).2.2.2.2.2.1 "YQ==" "image/png"
      rfl rfl (by decide) (by decide),
   (c8_request_shape "k" "p" (some "YQ==") (some "image/png")).2.2.1⟩

/-- C9, confirmed: over every handle-touching operation (generation
success, clearing the result, selecting or clearing the source image,
teardown), the state holds at most one current generated handle and at
most one current source handle, and whenever an operation installs a
new current handle while a previous one was held, the previous handle
is revoked earlier in the same operation's action sequence. -/
theorem c9_handle_discipline (op : UiOp) (st : GenState) :
    ((runOp op st).1.generatedImageUrl.toList.length ≤ 1 ∧
     (runOp op st).1.sourcePreviewUrl.toList.length ≤ 1) ∧
    (∀ o, st.generatedImageUrl = some o → genReplaceOk o (runOp op st).2 = true) ∧
    (∀ o, st.sourcePreviewUrl = some o → srcReplaceOk o (runOp op st).2 = true) := by
  refine ⟨⟨?_, ?_⟩, ?_, ?_⟩
  · cases (runOp op st).1.generatedImageUrl <;> simp [Option.toList]
  · cases (runOp op st).1.sourcePreviewUrl <;> simp [Option.toList]
  · intro o ho
    cases op with
    | generateSuccess blob =>
      simp [runOp, generateImageSuccess, clearGeneratedImage, ho, genReplaceOk]
    | clearResult =>
      simp [runOp, clearGeneratedImage, ho, genReplaceOk]
    | selectSource b64 mime =>
      cases hs : st.sourcePreviewUrl <;>
        simp [runOp, selectSourceImage, hs, genReplaceOk]
    | clearSource =>
      cases hs : st.sourcePreviewUrl <;>
        simp [runOp, clearSourceImage, hs, genReplaceOk]
    | teardown cg cs =>
      cases cg <;> cases cs <;> simp [runOp, genReplaceOk]
  · intro o ho
    cases op with
    | generateSuccess blob =>
      cases hg : st.generatedImageUrl <;>
        simp [runOp, generateImageSuccess, clearGeneratedImage, hg, srcReplaceOk]
    | clearResult =>
      cases hg : st.generatedImageUrl <;>
        simp [runOp, clearGeneratedImage, hg, srcReplaceOk]
    | selectSource b64 mime =>
      simp [runOp, selectSourceImage, ho, srcReplaceOk]
    | clearSource =>
      simp [runOp, clearSourceImage, ho, srcReplaceOk]
    | teardown cg cs =>
      cases cg <;> cases cs <;> simp [runOp, srcReplaceOk]

/-- A component state holding both a generated-image handle (id 1) and
a source-preview handle (id 0). -/
def stBusyW : GenState :=
  { stOkW with generatedImageUrl := some 1,
               generatedImageBlob := some { bytes := [], type := "image/png" },
               sourceBase64 := some "YQ==", sourceMime := some "image/png",
               sourcePreviewUrl := some 0, nextUrl := 2 }

/-- Witness for C9: a successful generation revokes handle 1 before
installing its replacement, and selecting a new source revokes handle 0
before installing its replacement. -/
theorem c9_handle_discipline_witness :
    genReplaceOk 1
      (runOp (UiOp.generateSuccess { bytes := [137], type := "image/png" }) stBusyW).2 = true ∧
    srcReplaceOk 0 (runOp (UiOp.selectSource "Yg==" "image/jpeg") stBusyW).2 = true :=
  ⟨(c9_handle_discipline (UiOp.generateSuccess { bytes := [137], type := "image/png" })
      stBusyW).2.1 1 rfl,
   (c9_handle_discipline (UiOp.selectSource "Yg==" "image/jpeg") stBusyW).2.2 0 rfl⟩
